import Mathlib

/-!
Verification of the core of src/src/sox.c (the SoX command-line driver):
the multi-input combiner, the effects-chain builder, the pull-based flow
scheduler with its buffer discipline, and the clipping accounting.

The C program is shallowly embedded: global counters become explicit
state, fixed-size arrays of stages become functions from stage index to a
stage record, machine integers become Nat/Int (the relevant quantities
are counts and 32-bit signed samples; all double-precision intermediates
in the mix loop are exact, see the comment at roundClip), and calls to
exit(n) / fatal errors become Except results carrying the exit code.
Effect plug-ins and codecs are external collaborators; they enter the
model as response functions constrained by the contract stated in the
specification (consume at most the offered samples, produce at most the
offered space).
-/

/-- Combine methods, in the order of the C enum
`{sox_sequence, sox_concatenate, sox_mix, sox_merge}` (sox.c line 62).
The numeric order matters: the code compares with
`combine_method <= sox_concatenate`. -/
inductive Method where
  | sequence
  | concatenate
  | mix
  | merge
deriving DecidableEq, Repr

/-- Numeric value of the C enum constant for each combine method. -/
def Method.toNat : Method → Nat
  | .sequence => 0
  | .concatenate => 1
  | .mix => 2
  | .merge => 3

/-! ## File-count limits (C9)

From sox.c lines 111-112:
  #define MAX_INPUT_FILES 32
  #define MAX_FILES MAX_INPUT_FILES + 2  (1 output file plus record input)
-/

def MAX_INPUT_FILES : Nat := 32

def MAX_FILES : Nat := MAX_INPUT_FILES + 2

/-- Embedding of the filename-accepting loop of `parse_options_and_filenames`
(sox.c lines 386-413) for a command line of `n` plain filenames (no
playlists, no play/rec device insertion).  For each filename the code
first checks `file_count >= MAX_FILES` and fails with the
"Too many filenames" message (exit 1, modelled as `Except.error ()`),
otherwise stores the file and increments `file_count`. -/
def parse_options_and_filenames : Nat → Nat → Except Unit Nat
  | 0, fileCount => Except.ok fileCount
  | n + 1, fileCount =>
      if MAX_FILES ≤ fileCount then Except.error ()
      else parse_options_and_filenames n (fileCount + 1)

/-! ## Input-count check (C10)

From sox.c lines 518-520:
  input_count = file_count ? file_count - 1 : 0;
  if (input_count < (combine_method <= sox_concatenate ? 1 : 2))
    usage("Not enough input filenames specified");
usage(message) with a non-null message exits with code 1 (line 1990),
and this check precedes every sox_open_read (line 554) and the single
sox_open_write (line 1160). -/

/-- Embedding of `input_count = file_count ? file_count - 1 : 0`; Nat
subtraction matches the C conditional since 0 - 1 = 0 here. -/
def input_count_of (fileCount : Nat) : Nat := fileCount - 1

/-- Embedding of the "Not enough input filenames specified" check in main
(sox.c lines 518-520): the error value carries the exit code 1 produced
by usage(). -/
def check_enough_inputs (m : Method) (fileCount : Nat) : Except Nat Unit :=
  if input_count_of fileCount < (if m.toNat ≤ Method.concatenate.toNat then 1 else 2) then
    Except.error 1
  else Except.ok ()

/-! ## Per-effect clip reporting (C5)

From sox.c `stop_effects` (lines 1797-1811):
    clips = efftab[e].clips;
    if (efftabR[e].name) {
      stop(&efftabR[e]);
      clips += efftab[e].clips;     -- note: efftab, not efftabR
    }
and `total_clips` (lines 1827-1840):
    clips += efftab[i].clips;
    if (efftabR[i].name)
      clips += efftab[i].clips;     -- note: efftab, not efftabR
-/

/-- Embedding of the clip count computed for one effect by `stop_effects`
(sox.c lines 1803-1808): `leftClips` is efftab[e].clips after stop,
`rightClips` is efftabR[e].clips after stop, `twin` is whether
efftabR[e].name is set.  The code adds efftab[e].clips a second time in
the twin case; `rightClips` is never read. -/
def stop_effects_reported (leftClips rightClips : Nat) (twin : Bool) : Nat :=
  let clips := leftClips
  if twin then clips + leftClips else clips

/-- Embedding of one effect's contribution to `total_clips`
(sox.c lines 1834-1837); again efftab[i].clips is added twice when a
right twin exists and `rightClips` is never read. -/
def total_clips_effect_contribution (leftClips rightClips : Nat) (twin : Bool) : Nat :=
  (leftClips + if twin then leftClips else 0)

/-! ## Mix default volume (C6)

doopts case 'v' (sox.c lines 858-867) stores the user volume on the file
and sets the single global flag `uservolume`.  main (lines 541-542):
    if (combine_method == sox_mix && !uservolume)
      f->volume = 1.0 / input_count;
progress_to_file (lines 1009-1012):
    if (f->volume == HUGE_VAL) f->volume = 1;
    if (f->replay_gain != HUGE_VAL) f->volume *= pow(10.0, f->replay_gain / 20);
Volumes are C doubles; they are modelled as exact rationals (the claim
is about which inputs receive which multiplier, not about rounding) and
the replay-gain factor is modelled as the already-linearised multiplier. -/

/-- Effective volume multiplier of input `i` as established by main and
`progress_to_file`: `userVols` holds the `-v` value per input file (none
when not supplied), `rg` the optional linear replay-gain factor for
input `i`.  HUGE_VAL (never user-set) is modelled by `none`. -/
def effective_volume (m : Method) (userVols : List (Option ℚ)) (i : Nat) (rg : Option ℚ) : ℚ :=
  let uservolume := userVols.any Option.isSome
  let inputCount := userVols.length
  let v0 : Option ℚ := userVols.getD i none
  let v1 : Option ℚ :=
    if m = Method.mix ∧ ¬ uservolume then some (1 / inputCount) else v0
  let v2 : ℚ := match v1 with
    | some v => v
    | none => 1
  match rg with
  | some g => v2 * g
  | none => v2

/-! ## Output length hint (C3)

From `process` (sox.c):
  known_length = combine_method != sox_sequence;              (line 1074)
  in the non-sequence branch, per input (lines 1088-1100):
    known_length = known_length && files[i]->desc->length != 0;
    if (combine_method == sox_concatenate)
      olen += files[i]->desc->length / files[i]->desc->signal.channels;
    else
      olen = max(olen, files[i]->desc->length / files[i]->desc->signal.channels);
  then (lines 1129-1133):
    for each user effect: known_length = known_length && !(flags & SOX_EFF_LENGTH);
    if (!known_length) olen = 0;
  and olen is the length hint passed to sox_open_write (line 1165). -/

/-- Input-file data relevant to the length hint: desc->length (total
samples, 0 meaning unknown) and desc->signal.channels. -/
structure InputFile where
  length : Nat
  channels : Nat
deriving DecidableEq, Repr

/-- One step of the per-input loop of `process` (sox.c lines 1088-1100),
acting on the accumulator (olen, known_length). -/
def process_olen_step (m : Method) (acc : Nat × Bool) (f : InputFile) : Nat × Bool :=
  let kl := acc.2 && decide (f.length ≠ 0)
  let ws := f.length / f.channels
  (if m = Method.concatenate then acc.1 + ws else max acc.1 ws, kl)

/-- Embedding of the olen / known_length computation of `process`
(sox.c lines 1069-1133): the wide-sample length hint handed to
sox_open_write. -/
def process_olen (m : Method) (inputs : List InputFile) (userEffLength : List Bool) : Nat :=
  let init : Nat × Bool := (0, decide (m ≠ Method.sequence))
  let folded := if m = Method.sequence then init else inputs.foldl (process_olen_step m) init
  let knownLength := folded.2 && !(userEffLength.any id)
  if knownLength then folded.1 else 0

/-- Restatement of C3 in the specification's words: 0 for sequence;
sum of input lengths in wide samples for concatenate; max for mix and
merge; 0 whenever a user effect has the LENGTH flag or an input length
is unknown (zero). -/
def claimed_length_hint (m : Method) (inputs : List InputFile) (userEffLength : List Bool) : Nat :=
  if m = Method.sequence ∨ (∃ b ∈ userEffLength, b = true) ∨ (∃ f ∈ inputs, f.length = 0) then 0
  else match m with
    | Method.concatenate => (inputs.map (fun f => f.length / f.channels)).sum
    | _ => (inputs.map (fun f => f.length / f.channels)).foldl max 0

/-! ## Chain builder (C4, C7)

Embedding of `build_effects_table` (sox.c lines 1368-1428).  Only the
capability flags of the user effects and the combiner/output signal
parameters determine the shape of the chain, so an effect is represented
by its SOX_EFF_CHAN / SOX_EFF_RATE flags and the chain by a list of
entry tags.  sox_fail followed by exit(2) (lines 1391-1392) is modelled
as Except.error carrying the exit code; the `user_rate_effects > 1`
case (lines 1394-1395) only emits a report and does not alter the
result. -/

structure UserEffect where
  chanFlag : Bool
  rateFlag : Bool
deriving DecidableEq, Repr

inductive ChainEntry where
  | input_stage
  | mixer
  | resample
  | user (i : Nat)
deriving DecidableEq, Repr

/-- Embedding of `build_effects_table` (sox.c lines 1368-1428): given the
combiner's and the output file's (rate, channels) and the user effects
in order, produce the chain as the ordered list of entries, or the exit
code on the multiple-CHAN-effects fatal error. -/
def build_effects_table (combinerRate combinerChannels outRate outChannels : Nat)
    (users : List UserEffect) : Except Nat (List ChainEntry) :=
  if 1 < (users.filter (fun u => u.chanFlag)).length then Except.error 2
  else
    let needRate0 := decide (combinerRate ≠ outRate)
    let needChan0 := decide (combinerChannels ≠ outChannels)
    let needRate1 := needRate0 && !(users.any (fun u => u.rateFlag))
    let needChan1 := needChan0 && !(users.any (fun u => u.chanFlag))
    let addFrontMixer := needChan1 && decide (outChannels < combinerChannels)
    let needChan2 := needChan1 && !addFrontMixer
    let addFrontResample := needRate1 && decide (outRate < combinerRate)
    let needRate2 := needRate1 && !addFrontResample
    Except.ok ([ChainEntry.input_stage]
      ++ (if addFrontMixer then [ChainEntry.mixer] else [])
      ++ (if addFrontResample then [ChainEntry.resample] else [])
      ++ (List.range users.length).map ChainEntry.user
      ++ (if needRate2 then [ChainEntry.resample] else [])
      ++ (if needChan2 then [ChainEntry.mixer] else []))

/-- Restatement of C4 in the claim's words: sentinel at index 0; the
default mixer iff a channel change is needed (channel counts differ and
no user CHAN effect) and the combiner has more channels than the output;
the default resampler iff a rate change is needed and the combiner's
rate exceeds the output's; the user effects in order; then the default
resampler if a rate change is still needed; then the default mixer if a
channel change is still needed. -/
def claimed_chain (combinerRate combinerChannels outRate outChannels : Nat)
    (users : List UserEffect) : List ChainEntry :=
  let chanChangeNeeded := decide (combinerChannels ≠ outChannels) && !(users.any (fun u => u.chanFlag))
  let rateChangeNeeded := decide (combinerRate ≠ outRate) && !(users.any (fun u => u.rateFlag))
  let reducingChannels := chanChangeNeeded && decide (outChannels < combinerChannels)
  let reducingRate := rateChangeNeeded && decide (outRate < combinerRate)
  [ChainEntry.input_stage]
  ++ (if reducingChannels then [ChainEntry.mixer] else [])
  ++ (if reducingRate then [ChainEntry.resample] else [])
  ++ (List.range users.length).map ChainEntry.user
  ++ (if rateChangeNeeded && !reducingRate then [ChainEntry.resample] else [])
  ++ (if chanChangeNeeded && !reducingChannels then [ChainEntry.mixer] else [])

/-! ## Mix combining (C1)

Embedding of the mix branch of the combine loop in `process`
(sox.c lines 1239-1261).  Balancing has already happened
(balance_input, line 1243), so the buffers hold balanced samples. -/

def SOX_SAMPLE_MAX : Int := 2 ^ 31 - 1

def SOX_SAMPLE_MIN : Int := -(2 ^ 31)

/-- Modelled from the spec: the saturation step SOX_ROUND_CLIP_COUNT used
at sox.c line 1254.  The macro lives in sox.h, which is not among this
repository's sources; the specification defines a clip as the event of a
computed sample falling outside the representable canonical range (signed
32-bit two's complement) and being clamped, with the clip count
incremented per saturation.  All values reaching the macro in the mix
loop are integers held exactly in doubles (the accumulator is kept
clipped and each addend is a 32-bit sample, so the sum stays below 2^33,
far inside the double's 53-bit exact range, and the macro's rounding by
half-and-truncate is the identity on integers), so the model works on
Int.  Returns the clamped value and 1 exactly when a clip occurred. -/
def roundClipCount (x : Int) : Int × Nat :=
  if x < SOX_SAMPLE_MIN then (SOX_SAMPLE_MIN, 1)
  else if SOX_SAMPLE_MAX < x then (SOX_SAMPLE_MAX, 1)
  else (x, 0)

/-- Per-input data for one block of the mix loop: ilen[i] (wide samples
read this block), the input's channel count
(files[i]->desc->signal.channels) and the balanced interleaved sample
buffer ibuf[i]. -/
structure InputBlock where
  len : Nat
  channels : Nat
  buf : Nat → Int

/-- One step of the innermost mix loop (sox.c lines 1250-1255): acc is
(the running value of the output sample *p, the running global
mixing_clips counter).  Input i contributes only when this block still
has wide sample ws (ws < ilen[i]) and the input has channel s. -/
def mixSampleStep (ws s : Nat) (acc : Int × Nat) (inp : InputBlock) : Int × Nat :=
  if ws < inp.len ∧ s < inp.channels then
    let sample := acc.1 + inp.buf (ws * inp.channels + s)
    let rc := roundClipCount sample
    (rc.1, acc.2 + rc.2)
  else acc

/-- Embedding of the mix branch of the combine loop in `process`
(sox.c lines 1246-1256): ws runs over the wide samples up to
efftab[0].olen, s over the combiner's channels; each output sample
starts at 0 (*p = 0) and folds the inputs with mixSampleStep, threading
the global mixing_clips counter through the whole block.  Returns the
output samples in buffer order and the mixing_clips increment of the
block. -/
def process_mix_block (inputs : List InputBlock) (channels olen : Nat) : List Int × Nat :=
  (List.range olen).foldl (fun accW ws =>
    (List.range channels).foldl (fun accS s =>
      let r := inputs.foldl (mixSampleStep ws s) (0, accS.2)
      (accS.1 ++ [r.1], r.2)) accW) ([], 0)

/-- Saturating accumulation of one addend, in the claim's words: add,
clip to the canonical range, count one clip per saturation. -/
def satAddClip (acc : Int × Nat) (x : Int) : Int × Nat :=
  let rc := roundClipCount (acc.1 + x)
  (rc.1, acc.2 + rc.2)

/-- Saturating sum of a list of samples starting from 0, together with
the number of saturations that occurred. -/
def saturatingSum (xs : List Int) : Int × Nat := xs.foldl satAddClip (0, 0)

/-- The balanced samples that C1 says contribute to output channel s of
wide sample ws: one sample from every input that still has data at ws
and has more than s channels. -/
def contributingSamples (inputs : List InputBlock) (ws s : Nat) : List Int :=
  (inputs.filter (fun inp => decide (ws < inp.len) && decide (s < inp.channels))).map
    (fun inp => inp.buf (ws * inp.channels + s))

/-! ## Pull scheduler, buffer counters (C2)

Counter-level embedding of flow_effect_out / flow_effect / drain_effect
(sox.c lines 1477-1791).  Buffer contents do not matter for the C2
invariant, so a stage is its (odone, olen) pair; the fixed-size global
arrays efftab/efftabR become a function from stage index to the pair.
Effects are external collaborators and enter as response functions of
(stage index, offered input, offered space). -/

/-- Buffer counters of one chain stage (struct sox_effect fields odone
and olen): samples [odone, olen) of the stage's output buffer are ready
for the next stage. -/
structure Stage where
  odone : Nat
  olen : Nat
deriving DecidableEq, Repr

/-- State of the effects chain during flow_effect_out: the stage
counters (efftab, by index) and the globals input_eff and
input_eff_eof. -/
structure ChainState where
  stages : Nat → Stage
  inputEff : Nat
  inputEffEof : Bool

def ChainState.get (ch : ChainState) (e : Nat) : Stage := ch.stages e

def ChainState.set (ch : ChainState) (e : Nat) (s : Stage) : ChainState :=
  { ch with stages := fun i => if i = e then s else ch.stages i }

/-- Response of one call to an effect's flow handler: actual samples
consumed from ibuf, actual samples produced into obuf, and whether
SOX_EOF was returned. -/
structure FlowResp where
  consumed : Nat
  produced : Nat
  eof : Bool

/-- Response of one call to an effect's drain handler. -/
structure DrainResp where
  produced : Nat
  eof : Bool

/-- Embedding of flow_effect (sox.c lines 1619-1720), counters only:
stage e pulls from stage e-1.  respL models the flow handler of
efftab[e] and respR that of the right twin efftabR[e] (consulted only
when twin e, mirroring efftabR[e].name); both take (stage index,
offered isamp, offered osamp).  In the twin branch the left side is
offered (idone+1)/2 input samples frames and the right idone/2, each
side half the free space, and the counters advance by the sums (lines
1700-1702).  Returns the updated state and whether the effect reported
SOX_EOF; Except.error () is the fatal "Effect took & gave no samples!"
exit(2) at lines 1715-1718.  user_abort is not modelled (no abort
occurs in the runs considered). -/
def flow_effect (bufsiz : Nat) (twin : Nat → Bool)
    (respL respR : Nat → Nat → Nat → FlowResp)
    (e : Nat) (ch : ChainState) : Except Unit (ChainState × Bool) :=
  let prev := ch.get (e - 1)
  let cur := ch.get e
  if prev.odone = prev.olen then Except.ok (ch, false)
  else if twin e then
    let idone := prev.olen - prev.odone
    let odone := bufsiz - cur.olen
    let rl := respL e ((idone + 1) / 2) (odone / 2)
    let rr := respR e (idone / 2) (odone / 2)
    let ch2 := (ch.set (e - 1) { prev with odone := prev.odone + rl.consumed + rr.consumed }).set e
      { cur with olen := cur.olen + rl.produced + rr.produced }
    if rl.eof || rr.eof then Except.ok (ch2, true)
    else if rl.consumed + rr.consumed + rl.produced + rr.produced = 0 then Except.error ()
    else Except.ok (ch2, false)
  else
    let idone := prev.olen - prev.odone
    let odone := bufsiz - cur.olen
    let r := respL e idone odone
    let ch2 := (ch.set (e - 1) { prev with odone := prev.odone + r.consumed }).set e
      { cur with olen := cur.olen + r.produced }
    if r.eof then Except.ok (ch2, true)
    else if r.consumed + r.produced = 0 then Except.error ()
    else Except.ok (ch2, false)

/-- Embedding of the backwards pull loop of flow_effect_out (sox.c lines
1485-1516): e runs from neffects-1 down to max(input_eff, 1); the stage
equal to input_eff is skipped once input_eff_eof is set (lines
1490-1491); a stage returning SOX_EOF becomes the new input_eff with
input_eff_eof cleared (lines 1500-1504); the loop breaks early when
stage e is left with unconsumed data (lines 1512-1515). -/
def flow_pass (bufsiz : Nat) (twin : Nat → Bool)
    (respL respR : Nat → Nat → Nat → FlowResp) :
    Nat → ChainState → Except Unit ChainState
  | 0, ch => Except.ok ch
  | e + 1, ch =>
    if e + 1 < ch.inputEff then Except.ok ch
    else if e + 1 = ch.inputEff ∧ ch.inputEffEof then
      flow_pass bufsiz twin respL respR e ch
    else
      match flow_effect bufsiz twin respL respR (e + 1) ch with
      | Except.error _ => Except.error ()
      | Except.ok (ch2, isEof) =>
        let ch3 := if isEof then { ch2 with inputEff := e + 1, inputEffEof := false } else ch2
        if (ch3.get (e + 1)).odone < (ch3.get (e + 1)).olen then Except.ok ch3
        else flow_pass bufsiz twin respL respR e ch3

/-- Embedding of the sink write of flow_effect_out (sox.c lines
1518-1544) with a successful write: the sink stage's pending samples
are written (or there were none) and its odone and olen are reset to 0
(line 1544).  A zero-length codec write would abort the iteration and
is not modelled (the I/O contract makes it an error). -/
def write_step (n : Nat) (ch : ChainState) : ChainState :=
  ch.set (n - 1) { odone := 0, olen := 0 }

/-- Embedding of one step of the buffer-reuse sweep of flow_effect_out
(sox.c lines 1551-1574) at stage e: a buffer with odone = olen is reset
to 0 for reuse; the stage counts as having data only when it holds at
least one full frame (olen - odone >= ofile channel count, lines
1565-1567). -/
def reset_stage (ochannels e : Nat) (ch : ChainState) : ChainState × Bool :=
  let s := ch.get e
  let s2 := if s.odone = s.olen then { odone := 0, olen := 0 } else s
  (ch.set e s2, decide (s2.odone < s2.olen) && decide (ochannels ≤ s2.olen - s2.odone))

/-- The buffer-reuse sweep itself: e from neffects-1 down to input_eff
inclusive (sox.c line 1551), accumulating havedata. -/
def reset_loop (ochannels inputEff : Nat) : Nat → ChainState → ChainState × Bool
  | 0, ch =>
    if inputEff = 0 then reset_stage ochannels 0 ch else (ch, false)
  | e + 1, ch =>
    if e + 1 < inputEff then (ch, false)
    else
      let p := reset_stage ochannels (e + 1) ch
      let q := reset_loop ochannels inputEff e p.1
      (q.1, p.2 || q.2)

/-- Embedding of drain_effect (sox.c lines 1749-1791), counters only:
drainL / drainR model the drain handlers of efftab[e] / efftabR[e] as
functions of (stage index, offered osamp).  The stage's buffer is
refilled from the start (odone = 0, lines 1760 and 1788); in the twin
case each side is offered sox_bufsiz/2 and olen becomes olenl + olenr
(line 1787). -/
def drain_effect (bufsiz : Nat) (twin : Nat → Bool)
    (drainL drainR : Nat → Nat → DrainResp)
    (e : Nat) (ch : ChainState) : ChainState × Bool :=
  if twin e then
    let dl := drainL e (bufsiz / 2)
    let dr := drainR e (bufsiz / 2)
    (ch.set e { odone := 0, olen := dl.produced + dr.produced }, dl.eof || dr.eof)
  else
    let d := drainL e bufsiz
    (ch.set e { odone := 0, olen := d.produced }, d.eof)

/-- Embedding of the drain-priming loop of flow_effect_out (sox.c lines
1585-1603), reached when no stage has data and input_eff > 0: drain
stages starting at input_eff, advancing past stages that drain empty
(input_eff++ with input_eff_eof cleared), stopping at the first stage
yielding data (havedata, input_eff_eof from the drain's status).  The
fuel argument is neffects - input_eff, bounding the while loop
input_eff < neffects. -/
def drain_prime (bufsiz : Nat) (twin : Nat → Bool)
    (drainL drainR : Nat → Nat → DrainResp) :
    Nat → ChainState → ChainState × Bool
  | 0, ch => (ch, false)
  | fuel + 1, ch =>
    let e := ch.inputEff
    let p := drain_effect bufsiz twin drainL drainR e ch
    if (p.1.get e).olen = 0 then
      drain_prime bufsiz twin drainL drainR fuel
        { p.1 with inputEff := e + 1, inputEffEof := false }
    else ({ p.1 with inputEffEof := p.2 }, true)

/-- One iteration of the main do-while loop of flow_effect_out
(sox.c lines 1482-1605): the backwards pull pass, the sink write, the
buffer-reuse sweep and, when nothing has data and the pull point has
moved off the sentinel, the EOF advance (lines 1580-1583) followed by
the drain-priming loop.  n is neffects and ochannels the output channel
count.  Returns the state and havedata as at the while (havedata) check
of line 1605, or Except.error () for the exit(2) inside flow_effect. -/
def flow_iteration (bufsiz n ochannels : Nat) (twin : Nat → Bool)
    (respL respR : Nat → Nat → Nat → FlowResp)
    (drainL drainR : Nat → Nat → DrainResp)
    (ch : ChainState) : Except Unit (ChainState × Bool) :=
  match flow_pass bufsiz twin respL respR (n - 1) ch with
  | Except.error _ => Except.error ()
  | Except.ok ch1 =>
    let ch2 := write_step n ch1
    let p := reset_loop ochannels ch1.inputEff (n - 1) ch2
    if p.2 = false ∧ 0 < p.1.inputEff then
      let ch4 := if p.1.inputEffEof then
        { p.1 with inputEff := p.1.inputEff + 1, inputEffEof := false } else p.1
      let q := drain_prime bufsiz twin drainL drainR (n - ch4.inputEff) ch4
      Except.ok q
    else Except.ok p

/-- The per-stage buffer invariant claimed by C2: for every stage,
0 <= odone <= olen <= sox_bufsiz (the 0 <= parts are inherent in Nat). -/
def StageInv (bufsiz n : Nat) (ch : ChainState) : Prop :=
  ∀ e, e < n → (ch.get e).odone ≤ (ch.get e).olen ∧ (ch.get e).olen ≤ bufsiz

/-- The buffer-reuse property claimed by C2, for the stages in [lo, n):
a stage whose odone equals its olen has both equal to 0. -/
def ResetProp (lo n : Nat) (ch : ChainState) : Prop :=
  ∀ e, lo ≤ e → e < n → (ch.get e).odone = (ch.get e).olen →
    (ch.get e).odone = 0 ∧ (ch.get e).olen = 0

/-- The flow contract of the effect collaborator (spec section 6.2):
one flow call consumes at most the offered isamp and produces at most
the offered osamp. -/
def FlowContract (resp : Nat → Nat → Nat → FlowResp) : Prop :=
  ∀ e ia os, (resp e ia os).consumed ≤ ia ∧ (resp e ia os).produced ≤ os

/-- The drain contract of the effect collaborator: one drain call
produces at most the offered osamp. -/
def DrainContract (d : Nat → Nat → DrainResp) : Prop :=
  ∀ e os, (d e os).produced ≤ os

/-! ## Stereo splitter with buffer contents (C8)

Buffer-content embedding of the twin branches of flow_effect
(sox.c lines 1662-1719) and drain_effect (lines 1761-1789). -/

/-- One chain stage with contents for the stereo-splitter model: obuf is
the filled prefix of the stage's output buffer (length olen). -/
structure BufStage where
  obuf : List Int
  odone : Nat
  olen : Nat
deriving DecidableEq, Repr

/-- Result of one call to a twin's flow or drain handler: samples
consumed, samples written into the scratch output buffer, and whether
SOX_EOF was returned. -/
structure EffectOut where
  consumed : Nat
  out : List Int
  eof : Bool
deriving DecidableEq, Repr

/-- The pairwise deinterleave loop of flow_effect (sox.c lines
1669-1673): left receives the even-indexed samples, right the
odd-indexed ones.  For an odd count the extra sample goes left
(idonel = (idone+1)/2); the half-filled last right slot of the C loop
is never offered to the effect because idoner = idone/2 rounds down, so
it is dropped here. -/
def deinterleave : List Int → List Int × List Int
  | [] => ([], [])
  | [x] => ([x], [])
  | x :: y :: rest =>
    let p := deinterleave rest
    (x :: p.1, y :: p.2)

/-- The interleave loop of flow_effect (sox.c lines 1696-1699) and
drain_effect (lines 1783-1786): writes k left/right pairs, reading
obufl[i] and obufr[i] for i < k.  An index beyond a side's produced
samples reads the zero-initialised scratch buffer (obufl and obufr are
xcalloc'ed at sox.c lines 512-515), modelled by getD with default 0. -/
def interleavePairs (ls rs : List Int) : Nat → List Int
  | 0 => []
  | k + 1 => interleavePairs ls rs k ++ [ls.getD k 0, rs.getD k 0]

/-- Embedding of the twin (non-MULTICHAN over stereo) branch of
flow_effect (sox.c lines 1662-1719) with buffer contents: flowL and
flowR model the flow handlers of efftab[e] and efftabR[e], taking the
deinterleaved half-buffer and the offered capacity (odone/2 each).
Returns (previous stage, current stage, SOX_EOF?) or Except.error ()
for the "Effect took & gave no samples!" exit(2).  The code performs no
check that the two sides produced equally many samples: the interleave
loop writes exactly odoner pairs (the right side's count, line 1696)
while olen advances by odonel + odoner (line 1702). -/
def flow_effect_twin (bufsiz : Nat)
    (flowL flowR : List Int → Nat → EffectOut)
    (prev cur : BufStage) : Except Unit (BufStage × BufStage × Bool) :=
  if prev.odone = prev.olen then Except.ok (prev, cur, false)
  else
    let idone := prev.olen - prev.odone
    let ocap := bufsiz - cur.olen
    let seg := (prev.obuf.drop prev.odone).take idone
    let lr := deinterleave seg
    let idonel := (idone + 1) / 2
    let idoner := idone / 2
    let rl := flowL (lr.1.take idonel) (ocap / 2)
    let rr := flowR (lr.2.take idoner) (ocap / 2)
    let prev2 := { prev with odone := prev.odone + rl.consumed + rr.consumed }
    let cur2 : BufStage :=
      { obuf := cur.obuf ++ interleavePairs rl.out rr.out rr.out.length,
        odone := cur.odone,
        olen := cur.olen + rl.out.length + rr.out.length }
    if rl.eof || rr.eof then Except.ok (prev2, cur2, true)
    else if rl.consumed + rr.consumed + rl.out.length + rr.out.length = 0 then Except.error ()
    else Except.ok (prev2, cur2, false)

/-- Embedding of the twin branch of drain_effect (sox.c lines 1761-1789)
with buffer contents: each side is offered sox_bufsiz/2; the interleave
loop writes olenr pairs from the start of the stage's buffer, olen
becomes olenl + olenr and odone 0.  Again no equality check between the
two sides' counts. -/
def drain_effect_twin (bufsiz : Nat)
    (drL drR : Nat → EffectOut)
    (cur : BufStage) : BufStage × Bool :=
  let dl := drL (bufsiz / 2)
  let dr := drR (bufsiz / 2)
  ({ obuf := interleavePairs dl.out dr.out dr.out.length,
     odone := 0,
     olen := dl.out.length + dr.out.length },
   dl.eof || dr.eof)

/-! ## Concrete runs used by counterexamples and witnesses -/

/-- Flow responses of the C2 counterexample run: the single real effect
(stage 1) consumes all offered samples, produces the same number, and
reports SOX_EOF on that same call. -/
def c2respL : Nat → Nat → Nat → FlowResp := fun e ia _ =>
  if e = 1 then { consumed := ia, produced := ia, eof := true }
  else { consumed := 0, produced := 0, eof := false }

/-- Right-twin responses of the C2 counterexample run (never consulted:
no stage is a twin). -/
def c2respR : Nat → Nat → Nat → FlowResp := fun _ _ _ =>
  { consumed := 0, produced := 0, eof := false }

/-- Drain responses of the C2 runs: every drain yields nothing. -/
def c2drain : Nat → Nat → DrainResp := fun _ _ => { produced := 0, eof := false }

/-- Initial state of the C2 counterexample run: a 3-stage chain
(sentinel, one effect, sink effect) with 4 fresh samples in the
sentinel buffer. -/
def c2start : ChainState :=
  { stages := fun i => if i = 0 then { odone := 0, olen := 4 } else { odone := 0, olen := 0 },
    inputEff := 0, inputEffEof := false }

/-- State after one flow_effect_out iteration of the C2 counterexample
run (sox_bufsiz 8, neffects 3, mono output, no twins). -/
def c2post : ChainState :=
  match flow_iteration 8 3 1 (fun _ => false) c2respL c2respR c2drain c2drain c2start with
  | Except.ok p => p.1
  | Except.error _ => c2start

/-- Flow responses of the C2 witness run: consume everything offered,
fill all offered space, never report EOF. -/
def c2wresp : Nat → Nat → Nat → FlowResp := fun _ ia os =>
  { consumed := ia, produced := os, eof := false }

/-- Initial state of the C2 witness run: a 2-stage chain with 2 fresh
samples in the sentinel buffer. -/
def c2wstart : ChainState :=
  { stages := fun i => if i = 0 then { odone := 0, olen := 2 } else { odone := 0, olen := 0 },
    inputEff := 0, inputEffEof := false }

/-- Result of one flow_effect_out iteration of the C2 witness run
(sox_bufsiz 4, neffects 2, mono output, no twins). -/
def c2wrun : Except Unit (ChainState × Bool) :=
  flow_iteration 4 2 1 (fun _ => false) c2wresp c2wresp c2drain c2drain c2wstart

/-- Post-state of the C2 witness run. -/
def c2wpost : ChainState :=
  match c2wrun with
  | Except.ok p => p.1
  | Except.error _ => c2wstart

/-- havedata flag of the C2 witness run. -/
def c2whd : Bool :=
  match c2wrun with
  | Except.ok p => p.2
  | Except.error _ => true

/-- Left twin of the C8 counterexample: consumes its whole input and
produces two samples. -/
def c8flowL : List Int → Nat → EffectOut := fun l _ =>
  { consumed := l.length, out := [10, 20], eof := false }

/-- Right twin of the C8 counterexample: consumes its whole input but
produces only one sample. -/
def c8flowR : List Int → Nat → EffectOut := fun l _ =>
  { consumed := l.length, out := [30], eof := false }

/-- Previous stage of the C8 counterexample: four unconsumed stereo
samples. -/
def c8prev : BufStage := { obuf := [1, 2, 3, 4], odone := 0, olen := 4 }

/-- Current (downstream) stage of the C8 counterexample: empty. -/
def c8cur : BufStage := { obuf := [], odone := 0, olen := 0 }

/-! # Theorems -/

/-- C9 (code bug): the filename parser accepts a command line of 34
plain filenames (33 inputs plus one output) and only rejects a 35th,
although MAX_INPUT_FILES is 32 and the "Too many filenames" message
(and the claim) promise at most 32 inputs plus one output: the check
compares file_count against MAX_FILES = MAX_INPUT_FILES + 2, whose
second spare slot is meant for the rec-mode device input. -/
theorem C9_file_count_limit :
    parse_options_and_filenames 34 0 = Except.ok 34
  ∧ parse_options_and_filenames 35 0 = Except.error ()
  ∧ input_count_of 34 = 33
  ∧ MAX_INPUT_FILES = 32 ∧ MAX_FILES = 34 :=
  ⟨rfl, rfl, rfl, rfl, rfl⟩

/-- C10: the "Not enough input filenames specified" usage check of main
(usage exits with code 1) fires exactly when fewer than two inputs are
named in mix or merge mode, or fewer than one in sequence or
concatenate mode; in main it precedes every sox_open_read and the
sox_open_write call. -/
theorem C10_not_enough_inputs (m : Method) (fileCount : Nat) :
    check_enough_inputs m fileCount = Except.error 1
      ↔ ((m = Method.mix ∨ m = Method.merge) ∧ fileCount - 1 < 2)
        ∨ ((m = Method.sequence ∨ m = Method.concatenate) ∧ fileCount - 1 < 1) := by
  cases m <;>
    simp [check_enough_inputs, input_count_of, Method.toNat] <;>
    split <;> simp_all

/-- C5 (code bug): for a twinned effect whose left instance clipped 1
sample and whose right instance clipped 2, both the shutdown warning of
stop_effects and the total_clips aggregate report 1 + 1 = 2 (the left
counter added twice), not the claimed left + right = 3: the code reads
efftab[e].clips where efftabR[e].clips was intended. -/
theorem C5_twin_clip_sum :
    stop_effects_reported 1 2 true = 2
  ∧ total_clips_effect_contribution 1 2 true = 2
  ∧ stop_effects_reported 1 2 true ≠ 1 + 2
  ∧ total_clips_effect_contribution 1 2 true ≠ 1 + 2 := by
  decide

/-- C7 counterexample: two user CHAN effects make build_effects_table
fail with exit code 2, not 1 as the claim states. -/
theorem C7_counterexample :
    build_effects_table 8000 2 8000 2
      [{ chanFlag := true, rateFlag := false }, { chanFlag := true, rateFlag := false }]
      = Except.error 2
  ∧ (Except.error 2 : Except Nat (List ChainEntry)) ≠ Except.error 1 :=
  ⟨rfl, fun h => by injection h with h2; exact absurd h2 (by decide)⟩

/-- C7 (amended): specifying more than one channel-changing (CHAN) user
effect is fatal: the chain builder prints a message and exits with code
2 (sox_fail + exit(2)), so no chain is built and no pipeline started. -/
theorem C7_multiple_chan_exit (cr cc orr oc : Nat) (users : List UserEffect)
    (h : 1 < (users.filter (fun u => u.chanFlag)).length) :
    build_effects_table cr cc orr oc users = Except.error 2 := by
  unfold build_effects_table
  rw [if_pos h]

/-- Witness for C7: a command line with a CHAN effect followed by a
CHAN+RATE effect exits with code 2. -/
theorem C7_multiple_chan_exit_witness :
    build_effects_table 8000 1 8000 1
      [{ chanFlag := true, rateFlag := false }, { chanFlag := true, rateFlag := true }]
      = Except.error 2 :=
  C7_multiple_chan_exit 8000 1 8000 1 _ (by decide)

/-- C4: every chain the builder successfully builds is, in order: the
input sentinel at index 0; the default mixer iff a channel change is
needed and the combiner has more channels than the output; the default
resampler iff a rate change is needed and the combiner's rate exceeds
the output's; the user effects in the given order; then the default
resampler if a rate change is still needed; then the default mixer if a
channel change is still needed. -/
theorem C4_chain_order (cr cc orr oc : Nat) (users : List UserEffect)
    (chain : List ChainEntry)
    (h : build_effects_table cr cc orr oc users = Except.ok chain) :
    chain = claimed_chain cr cc orr oc users := by
  unfold build_effects_table at h
  split at h
  · exact absurd h (by simp)
  · injection h with h2
    rw [← h2]
    rfl

/-- Witness for C4: a 48000 Hz stereo combiner feeding a 44100 Hz mono
output with no user effects gets the default mixer first and then the
default resampler, right after the sentinel. -/
theorem C4_chain_order_witness :
    build_effects_table 48000 2 44100 1 []
      = Except.ok [ChainEntry.input_stage, ChainEntry.mixer, ChainEntry.resample]
  ∧ [ChainEntry.input_stage, ChainEntry.mixer, ChainEntry.resample]
      = claimed_chain 48000 2 44100 1 [] :=
  ⟨rfl, C4_chain_order 48000 2 44100 1 []
    [ChainEntry.input_stage, ChainEntry.mixer, ChainEntry.resample] rfl⟩

/-- C6 counterexample: with two mix inputs of which only the first got a
user-supplied volume (-v 2), the second input's effective multiplier is
1, not the claimed 1/N = 1/2: the single global uservolume flag
disables the 1/N default for every input at once. -/
theorem C6_counterexample :
    effective_volume Method.mix [some 2, none] 1 none = 1
  ∧ effective_volume Method.mix [some 2, none] 1 none
      ≠ 1 / (([some 2, none] : List (Option ℚ)).length : ℚ) := by
  constructor
  · norm_num [effective_volume]
  · norm_num [effective_volume]

/-- C6 (amended): in mix combining, when no input's volume multiplier
was user-supplied every input's effective multiplier is 1/N; when at
least one input's multiplier was user-supplied, the inputs without one
get effective multiplier 1 instead, because -v sets a single global
uservolume flag that disables the 1/N default for all inputs at once.
Stated for inputs without replay gain. -/
theorem C6_mix_default_volume (userVols : List (Option ℚ)) (i : Nat)
    (hi : i < userVols.length) (hnone : userVols.getD i none = none) :
    (¬ (∃ v ∈ userVols, v.isSome = true) →
        effective_volume Method.mix userVols i none = 1 / (userVols.length : ℚ))
  ∧ ((∃ v ∈ userVols, v.isSome = true) →
        effective_volume Method.mix userVols i none = 1) := by
  constructor
  · intro hno
    have hany : userVols.any Option.isSome = false := by
      rw [Bool.eq_false_iff]
      intro hc
      exact hno (by simpa using List.any_eq_true.mp hc)
    simp [effective_volume, hany]
  · intro hyes
    have hany : userVols.any Option.isSome = true :=
      List.any_eq_true.mpr (by simpa using hyes)
    have hnone2 : userVols[i]?.getD none = (none : Option ℚ) := by
      rw [← List.getD_eq_getElem?_getD]
      exact hnone
    simp [effective_volume, hany, hnone2]

/-- Witness for C6: with two mix inputs and no user-supplied volume at
all, input 0 gets effective multiplier 1/N = 1/2. -/
theorem C6_mix_default_volume_witness :
    effective_volume Method.mix [none, none] 0 none
      = 1 / (([none, none] : List (Option ℚ)).length : ℚ) :=
  (C6_mix_default_volume [none, none] 0 (by decide) rfl).1 (by simp)

/-- The known_length component of the per-input fold of `process`:
it is the conjunction of the incoming flag with every input having a
nonzero (known) length. -/
theorem process_olen_fold_known (m : Method) (l : List InputFile) (a : Nat) (k : Bool) :
    (l.foldl (process_olen_step m) (a, k)).2
      = (k && l.all (fun f => decide (f.length ≠ 0))) := by
  induction l generalizing a k with
  | nil => simp
  | cons f t ih =>
      simp only [List.foldl_cons, process_olen_step, List.all_cons]
      rw [ih]
      rw [Bool.and_assoc]

/-- The olen component of the per-input fold in concatenate mode:
the incoming value plus the sum of the wide-sample lengths. -/
theorem process_olen_fold_concat (l : List InputFile) (a : Nat) (k : Bool) :
    (l.foldl (process_olen_step Method.concatenate) (a, k)).1
      = a + (l.map (fun f => f.length / f.channels)).sum := by
  induction l generalizing a k with
  | nil => simp
  | cons f t ih =>
      simp only [List.foldl_cons, process_olen_step, List.map_cons, List.sum_cons, if_pos,
        reduceIte]
      rw [ih]
      omega

/-- The olen component of the per-input fold in mix and merge modes:
the running maximum of the wide-sample lengths. -/
theorem process_olen_fold_max (m : Method) (hm : m ≠ Method.concatenate)
    (l : List InputFile) (a : Nat) (k : Bool) :
    (l.foldl (process_olen_step m) (a, k)).1
      = (l.map (fun f => f.length / f.channels)).foldl max a := by
  induction l generalizing a k with
  | nil => simp
  | cons f t ih =>
      simp only [List.foldl_cons, process_olen_step, List.map_cons]
      rw [if_neg hm]
      rw [ih]

/-- All input lengths known equals no input length unknown. -/
theorem all_known_eq_not_any_zero (l : List InputFile) :
    (l.all (fun f => decide (f.length ≠ 0))) = !(l.any (fun f => decide (f.length = 0))) := by
  simp only [decide_not]
  exact (List.not_any_eq_all_not l (fun f => decide (f.length = 0))).symm

/-- C3: the length hint passed to the output sink's sox_open_write is 0
in sequence mode; the sum of the inputs' lengths in wide samples in
concatenate mode; the maximum of the inputs' lengths in wide samples in
mix and merge modes; and 0 whenever any user effect carries the LENGTH
flag or any input's length is unknown (zero). -/
theorem C3_length_hint (m : Method) (inputs : List InputFile) (userEffLength : List Bool) :
    process_olen m inputs userEffLength = claimed_length_hint m inputs userEffLength := by
  cases m with
  | sequence => simp [process_olen, claimed_length_hint]
  | concatenate =>
      simp only [process_olen, claimed_length_hint]
      rw [if_neg (show ¬ (Method.concatenate = Method.sequence) by decide)]
      rw [process_olen_fold_known, process_olen_fold_concat, all_known_eq_not_any_zero]
      by_cases hz : ∃ f ∈ inputs, f.length = 0
      · have hzb : inputs.any (fun f => decide (f.length = 0)) = true :=
          List.any_eq_true.mpr (by simpa using hz)
        simp [hzb, hz]
      · have hzb : inputs.any (fun f => decide (f.length = 0)) = false := by
          rw [Bool.eq_false_iff]
          intro hc
          exact hz (by simpa using List.any_eq_true.mp hc)
        by_cases hu : ∃ b ∈ userEffLength, b = true
        · have hub : userEffLength.any id = true := List.any_eq_true.mpr (by simpa using hu)
          simp [hzb, hub, hz, hu]
        · have hub : userEffLength.any id = false := by
            rw [Bool.eq_false_iff]
            intro hc
            exact hu (by simpa using List.any_eq_true.mp hc)
          simp [hzb, hub, hz, hu]
  | mix =>
      simp only [process_olen, claimed_length_hint]
      rw [if_neg (show ¬ (Method.mix = Method.sequence) by decide)]
      rw [process_olen_fold_known, process_olen_fold_max Method.mix (by decide),
        all_known_eq_not_any_zero]
      by_cases hz : ∃ f ∈ inputs, f.length = 0
      · have hzb : inputs.any (fun f => decide (f.length = 0)) = true :=
          List.any_eq_true.mpr (by simpa using hz)
        simp [hzb, hz]
      · have hzb : inputs.any (fun f => decide (f.length = 0)) = false := by
          rw [Bool.eq_false_iff]
          intro hc
          exact hz (by simpa using List.any_eq_true.mp hc)
        by_cases hu : ∃ b ∈ userEffLength, b = true
        · have hub : userEffLength.any id = true := List.any_eq_true.mpr (by simpa using hu)
          simp [hzb, hub, hz, hu]
        · have hub : userEffLength.any id = false := by
            rw [Bool.eq_false_iff]
            intro hc
            exact hu (by simpa using List.any_eq_true.mp hc)
          simp [hzb, hub, hz, hu]
  | merge =>
      simp only [process_olen, claimed_length_hint]
      rw [if_neg (show ¬ (Method.merge = Method.sequence) by decide)]
      rw [process_olen_fold_known, process_olen_fold_max Method.merge (by decide),
        all_known_eq_not_any_zero]
      by_cases hz : ∃ f ∈ inputs, f.length = 0
      · have hzb : inputs.any (fun f => decide (f.length = 0)) = true :=
          List.any_eq_true.mpr (by simpa using hz)
        simp [hzb, hz]
      · have hzb : inputs.any (fun f => decide (f.length = 0)) = false := by
          rw [Bool.eq_false_iff]
          intro hc
          exact hz (by simpa using List.any_eq_true.mp hc)
        by_cases hu : ∃ b ∈ userEffLength, b = true
        · have hub : userEffLength.any id = true := List.any_eq_true.mpr (by simpa using hu)
          simp [hzb, hub, hz, hu]
        · have hub : userEffLength.any id = false := by
            rw [Bool.eq_false_iff]
            intro hc
            exact hu (by simpa using List.any_eq_true.mp hc)
          simp [hzb, hub, hz, hu]

/-- The innermost mix fold over all inputs equals the saturating fold
over just the contributing samples: non-contributing inputs leave the
accumulator untouched. -/
theorem mix_fold_filter (ws s : Nat) (l : List InputBlock) (acc : Int × Nat) :
    l.foldl (mixSampleStep ws s) acc
      = (contributingSamples l ws s).foldl satAddClip acc := by
  induction l generalizing acc with
  | nil => rfl
  | cons inp t ih =>
      simp only [contributingSamples, List.filter_cons] at *
      by_cases h : ws < inp.len ∧ s < inp.channels
      · rw [List.foldl_cons,
          show (decide (ws < inp.len) && decide (s < inp.channels)) = true by
            simp [h.1, h.2]]
        simp only [List.map_cons, List.foldl_cons]
        rw [show mixSampleStep ws s acc inp
            = satAddClip acc (inp.buf (ws * inp.channels + s)) by
          simp [mixSampleStep, satAddClip, h]]
        exact ih _
      · rw [List.foldl_cons,
          show (decide (ws < inp.len) && decide (s < inp.channels)) = false by
            rw [Bool.eq_false_iff]
            intro hc
            exact h (by constructor <;> [exact of_decide_eq_true (Bool.and_elim_left hc);
              exact of_decide_eq_true (Bool.and_elim_right hc)])]
        rw [show mixSampleStep ws s acc inp = acc by simp [mixSampleStep, h]]
        exact ih _

/-- Threading a nonzero clip counter through a saturating fold only
offsets the final counter: the running sample value is unaffected and
the counter increments add up. -/
theorem satAddClip_fold_add (l : List Int) (x : Int) (c : Nat) :
    l.foldl satAddClip (x, c)
      = ((l.foldl satAddClip (x, 0)).1, c + (l.foldl satAddClip (x, 0)).2) := by
  induction l generalizing x c with
  | nil => simp
  | cons a t ih =>
      simp only [List.foldl_cons]
      have hsplit : satAddClip (x, c) a
          = ((roundClipCount (x + a)).1, c + (roundClipCount (x + a)).2) := rfl
      have hsplit0 : satAddClip (x, 0) a
          = ((roundClipCount (x + a)).1, 0 + (roundClipCount (x + a)).2) := rfl
      rw [hsplit, hsplit0, ih, ih ((roundClipCount (x + a)).1) (0 + (roundClipCount (x + a)).2)]
      simp [Nat.add_assoc]

/-- One output row of the mix loop: folding the channel indices appends
one saturating sum per channel and adds the per-channel saturation
counts to the running clip counter. -/
theorem mix_inner_fold (inputs : List InputBlock) (ws : Nat) (L : List Nat)
    (lst : List Int) (c : Nat) :
    L.foldl (fun accS s =>
        (accS.1 ++ [(inputs.foldl (mixSampleStep ws s) (0, accS.2)).1],
         (inputs.foldl (mixSampleStep ws s) (0, accS.2)).2)) (lst, c)
      = (lst ++ L.map (fun s => (saturatingSum (contributingSamples inputs ws s)).1),
         c + (L.map (fun s => (saturatingSum (contributingSamples inputs ws s)).2)).sum) := by
  induction L generalizing lst c with
  | nil => simp
  | cons s t ih =>
      have hr : inputs.foldl (mixSampleStep ws s) ((0 : Int), c)
          = ((saturatingSum (contributingSamples inputs ws s)).1,
             c + (saturatingSum (contributingSamples inputs ws s)).2) := by
        rw [mix_fold_filter, satAddClip_fold_add]
        rfl
      rw [List.foldl_cons]
      dsimp only
      rw [hr]
      dsimp only
      rw [ih]
      simp [Nat.add_assoc]

/-- The whole mix block: folding the wide-sample indices joins the rows
in order and sums all per-sample saturation counts. -/
theorem mix_outer_fold (inputs : List InputBlock) (channels : Nat) (W : List Nat)
    (lst : List Int) (c : Nat) :
    W.foldl (fun accW ws =>
        (List.range channels).foldl (fun accS s =>
          (accS.1 ++ [(inputs.foldl (mixSampleStep ws s) (0, accS.2)).1],
           (inputs.foldl (mixSampleStep ws s) (0, accS.2)).2)) accW) (lst, c)
      = (lst ++ (W.map (fun ws => (List.range channels).map
            (fun s => (saturatingSum (contributingSamples inputs ws s)).1))).flatten,
         c + (W.map (fun ws => ((List.range channels).map
            (fun s => (saturatingSum (contributingSamples inputs ws s)).2)).sum)).sum) := by
  induction W generalizing lst c with
  | nil => simp
  | cons ws t ih =>
      rw [List.foldl_cons]
      rw [mix_inner_fold, ih]
      simp [Nat.add_assoc]

/-- C1: in a mix run, the output block laid out in buffer order is, wide
sample by wide sample and channel by channel, exactly the saturating
sum (clipped to the canonical signed-sample range) of the balanced
samples of every input that still has data at that wide-sample index
and has more than that many channels; and the global mixing clip
counter grows by one per saturation, summed over the whole block. -/
theorem C1_mix_saturating_sum (inputs : List InputBlock) (channels olen : Nat) :
    process_mix_block inputs channels olen
      = (((List.range olen).map (fun ws => (List.range channels).map
            (fun s => (saturatingSum (contributingSamples inputs ws s)).1))).flatten,
         ((List.range olen).map (fun ws => ((List.range channels).map
            (fun s => (saturatingSum (contributingSamples inputs ws s)).2)).sum)).sum) := by
  unfold process_mix_block
  dsimp only
  rw [mix_outer_fold]
  simp

/-- Reading back the stage just written. -/
theorem ChainState.get_set_self (ch : ChainState) (e : Nat) (s : Stage) :
    (ch.set e s).get e = s := by
  simp [ChainState.get, ChainState.set]

/-- Reading a different stage than the one written. -/
theorem ChainState.get_set_ne (ch : ChainState) (e i : Nat) (s : Stage) (h : i ≠ e) :
    (ch.set e s).get i = ch.get i := by
  simp [ChainState.get, ChainState.set, h]

/-- Writing a stage does not move the pull point. -/
theorem ChainState.set_inputEff (ch : ChainState) (e : Nat) (s : Stage) :
    (ch.set e s).inputEff = ch.inputEff ∧ (ch.set e s).inputEffEof = ch.inputEffEof :=
  ⟨rfl, rfl⟩

/-- Updating the two stages touched by one flow_effect call preserves the
buffer invariant provided the two new stages are themselves within
bounds (hypotheses only needed when the stage index is tracked). -/
theorem set2_inv (bufsiz n : Nat) (ch : ChainState) (hinv : StageInv bufsiz n ch)
    (e : Nat) (he : 1 ≤ e) (p q : Stage)
    (hp : e - 1 < n → p.odone ≤ p.olen ∧ p.olen ≤ bufsiz)
    (hq : e < n → q.odone ≤ q.olen ∧ q.olen ≤ bufsiz) :
    StageInv bufsiz n ((ch.set (e - 1) p).set e q) := by
  intro i hi
  rcases eq_or_ne i e with hie | hie
  · rw [hie, ChainState.get_set_self]
    exact hq (hie ▸ hi)
  · rw [ChainState.get_set_ne _ _ _ _ hie]
    rcases eq_or_ne i (e - 1) with hip | hip
    · rw [hip, ChainState.get_set_self]
      exact hp (hip ▸ hi)
    · rw [ChainState.get_set_ne _ _ _ _ hip]
      exact hinv i hi

/-- One flow_effect call keeps every stage's counters within
0 <= odone <= olen <= sox_bufsiz, provided the effect respects the flow
contract; the pull point is untouched. -/
theorem flow_effect_inv (bufsiz n : Nat) (twin : Nat → Bool)
    (respL respR : Nat → Nat → Nat → FlowResp)
    (hL : FlowContract respL) (hR : FlowContract respR)
    (e : Nat) (he : 1 ≤ e) (ch : ChainState) (hinv : StageInv bufsiz n ch)
    (ch2 : ChainState) (isEof : Bool)
    (h : flow_effect bufsiz twin respL respR e ch = Except.ok (ch2, isEof)) :
    StageInv bufsiz n ch2 ∧ ch2.inputEff = ch.inputEff ∧ ch2.inputEffEof = ch.inputEffEof := by
  simp only [flow_effect] at h
  by_cases hnd : (ch.get (e - 1)).odone = (ch.get (e - 1)).olen
  · rw [if_pos hnd] at h
    injection h with h1
    injection h1 with h1 h2
    rw [← h1]
    exact ⟨hinv, rfl, rfl⟩
  · rw [if_neg hnd] at h
    by_cases htw : twin e = true
    · rw [if_pos htw] at h
      have hcl := hL e (((ch.get (e - 1)).olen - (ch.get (e - 1)).odone + 1) / 2)
        ((bufsiz - (ch.get e).olen) / 2)
      have hcr := hR e (((ch.get (e - 1)).olen - (ch.get (e - 1)).odone) / 2)
        ((bufsiz - (ch.get e).olen) / 2)
      have hmain : ch2 = (ch.set (e - 1)
          { odone := (ch.get (e - 1)).odone
              + (respL e (((ch.get (e - 1)).olen - (ch.get (e - 1)).odone + 1) / 2)
                  ((bufsiz - (ch.get e).olen) / 2)).consumed
              + (respR e (((ch.get (e - 1)).olen - (ch.get (e - 1)).odone) / 2)
                  ((bufsiz - (ch.get e).olen) / 2)).consumed,
            olen := (ch.get (e - 1)).olen }).set e
          { odone := (ch.get e).odone,
            olen := (ch.get e).olen
              + (respL e (((ch.get (e - 1)).olen - (ch.get (e - 1)).odone + 1) / 2)
                  ((bufsiz - (ch.get e).olen) / 2)).produced
              + (respR e (((ch.get (e - 1)).olen - (ch.get (e - 1)).odone) / 2)
                  ((bufsiz - (ch.get e).olen) / 2)).produced } := by
        split at h
        · injection h with h1
          injection h1 with h1 h2
          exact h1.symm
        · split at h
          · exact absurd h (by simp)
          · injection h with h1
            injection h1 with h1 h2
            exact h1.symm
      rw [hmain]
      refine ⟨set2_inv bufsiz n ch hinv e he _ _ ?_ ?_, rfl, rfl⟩
      · intro hlt
        have ha := (hinv (e - 1) hlt).1
        have hb := (hinv (e - 1) hlt).2
        constructor
        · show (ch.get (e - 1)).odone + _ + _ ≤ (ch.get (e - 1)).olen
          omega
        · exact hb
      · intro hlt
        have ha := (hinv e hlt).1
        have hb := (hinv e hlt).2
        constructor
        · show (ch.get e).odone ≤ (ch.get e).olen + _ + _
          omega
        · show (ch.get e).olen + _ + _ ≤ bufsiz
          omega
    · rw [if_neg htw] at h
      have hc := hL e ((ch.get (e - 1)).olen - (ch.get (e - 1)).odone)
        (bufsiz - (ch.get e).olen)
      have hmain : ch2 = (ch.set (e - 1)
          { odone := (ch.get (e - 1)).odone
              + (respL e ((ch.get (e - 1)).olen - (ch.get (e - 1)).odone)
                  (bufsiz - (ch.get e).olen)).consumed,
            olen := (ch.get (e - 1)).olen }).set e
          { odone := (ch.get e).odone,
            olen := (ch.get e).olen
              + (respL e ((ch.get (e - 1)).olen - (ch.get (e - 1)).odone)
                  (bufsiz - (ch.get e).olen)).produced } := by
        split at h
        · injection h with h1
          injection h1 with h1 h2
          exact h1.symm
        · split at h
          · exact absurd h (by simp)
          · injection h with h1
            injection h1 with h1 h2
            exact h1.symm
      rw [hmain]
      refine ⟨set2_inv bufsiz n ch hinv e he _ _ ?_ ?_, rfl, rfl⟩
      · intro hlt
        have ha := (hinv (e - 1) hlt).1
        have hb := (hinv (e - 1) hlt).2
        constructor
        · show (ch.get (e - 1)).odone + _ ≤ (ch.get (e - 1)).olen
          omega
        · exact hb
      · intro hlt
        have ha := (hinv e hlt).1
        have hb := (hinv e hlt).2
        constructor
        · show (ch.get e).odone ≤ (ch.get e).olen + _
          omega
        · show (ch.get e).olen + _ ≤ bufsiz
          omega

/-- The whole backwards pull pass preserves the buffer invariant. -/
theorem flow_pass_inv (bufsiz n : Nat) (twin : Nat → Bool)
    (respL respR : Nat → Nat → Nat → FlowResp)
    (hL : FlowContract respL) (hR : FlowContract respR) :
    ∀ (e : Nat) (ch : ChainState), StageInv bufsiz n ch →
      ∀ ch1, flow_pass bufsiz twin respL respR e ch = Except.ok ch1 →
        StageInv bufsiz n ch1 := by
  intro e
  induction e with
  | zero =>
      intro ch hinv ch1 h
      simp only [flow_pass] at h
      injection h with h1
      rw [← h1]
      exact hinv
  | succ e ih =>
      intro ch hinv ch1 h
      simp only [flow_pass] at h
      by_cases h1 : e + 1 < ch.inputEff
      · rw [if_pos h1] at h
        injection h with hh
        rw [← hh]
        exact hinv
      · rw [if_neg h1] at h
        by_cases h2 : e + 1 = ch.inputEff ∧ ch.inputEffEof = true
        · rw [if_pos h2] at h
          exact ih ch hinv ch1 h
        · rw [if_neg h2] at h
          split at h
          · exact absurd h (by simp)
          · rename_i ch2 isEof heq
            have hfei := flow_effect_inv bufsiz n twin respL respR hL hR (e + 1)
              (by omega) ch hinv ch2 isEof heq
            split at h
            · split at h
              · injection h with hh
                rw [← hh]
                exact hfei.1
              · refine ih _ ?_ ch1 h
                exact hfei.1
            · split at h
              · injection h with hh
                rw [← hh]
                exact hfei.1
              · refine ih _ ?_ ch1 h
                exact hfei.1

/-- The sink write preserves the buffer invariant and does not move the
pull point. -/
theorem write_step_inv (bufsiz n k : Nat) (ch : ChainState) (hinv : StageInv bufsiz n ch) :
    StageInv bufsiz n (write_step k ch) := by
  intro i hi
  rcases eq_or_ne i (k - 1) with hik | hik
  · rw [write_step, hik, ChainState.get_set_self]
    exact ⟨le_refl 0, Nat.zero_le bufsiz⟩
  · rw [write_step, ChainState.get_set_ne _ _ _ _ hik]
    exact hinv i hi

/-- One reset step preserves the buffer invariant. -/
theorem reset_stage_inv (bufsiz n ochannels e : Nat) (ch : ChainState)
    (hinv : StageInv bufsiz n ch) :
    StageInv bufsiz n (reset_stage ochannels e ch).1 := by
  simp only [reset_stage]
  intro i hi
  rcases eq_or_ne i e with hie | hie
  · rw [hie, ChainState.get_set_self]
    split
    · exact ⟨le_refl 0, Nat.zero_le bufsiz⟩
    · exact hinv e (hie ▸ hi)
  · rw [ChainState.get_set_ne _ _ _ _ hie]
    exact hinv i hi

/-- A reset step only touches its own stage. -/
theorem reset_stage_get_ne (ochannels e i : Nat) (ch : ChainState) (h : i ≠ e) :
    ((reset_stage ochannels e ch).1).get i = ch.get i := by
  simp only [reset_stage]
  exact ChainState.get_set_ne _ _ _ _ h

/-- After a reset step, the treated stage satisfies the reuse property:
equal counters imply both are zero. -/
theorem reset_stage_resets (ochannels e : Nat) (ch : ChainState) :
    ((((reset_stage ochannels e ch).1).get e).odone
        = (((reset_stage ochannels e ch).1).get e).olen) →
    (((reset_stage ochannels e ch).1).get e).odone = 0
  ∧ (((reset_stage ochannels e ch).1).get e).olen = 0 := by
  simp only [reset_stage]
  rw [ChainState.get_set_self]
  split
  · intro h2
    exact ⟨rfl, rfl⟩
  · rename_i hne
    intro h2
    exact absurd h2 hne

/-- The reset sweep preserves the buffer invariant. -/
theorem reset_loop_inv (bufsiz n ochannels inputEff : Nat) :
    ∀ (e : Nat) (ch : ChainState), StageInv bufsiz n ch →
      StageInv bufsiz n (reset_loop ochannels inputEff e ch).1 := by
  intro e
  induction e with
  | zero =>
      intro ch hinv
      simp only [reset_loop]
      split
      · exact reset_stage_inv bufsiz n ochannels 0 ch hinv
      · exact hinv
  | succ e ih =>
      intro ch hinv
      simp only [reset_loop]
      split
      · exact hinv
      · exact ih _ (reset_stage_inv bufsiz n ochannels (e + 1) ch hinv)

/-- The reset sweep does not touch stages above its start index. -/
theorem reset_loop_get_high (ochannels inputEff : Nat) :
    ∀ (e : Nat) (ch : ChainState) (i : Nat), e < i →
      ((reset_loop ochannels inputEff e ch).1).get i = ch.get i := by
  intro e
  induction e with
  | zero =>
      intro ch i hi
      simp only [reset_loop]
      split
      · exact reset_stage_get_ne _ _ _ _ (by omega)
      · rfl
  | succ e ih =>
      intro ch i hi
      simp only [reset_loop]
      split
      · rfl
      · rw [ih _ i (by omega), reset_stage_get_ne _ _ _ _ (by omega)]

/-- The reset sweep does not move the pull point. -/
theorem reset_loop_inputEff (ochannels inputEff : Nat) :
    ∀ (e : Nat) (ch : ChainState),
      ((reset_loop ochannels inputEff e ch).1).inputEff = ch.inputEff
    ∧ ((reset_loop ochannels inputEff e ch).1).inputEffEof = ch.inputEffEof := by
  intro e
  induction e with
  | zero =>
      intro ch
      simp only [reset_loop]
      split
      · exact ⟨rfl, rfl⟩
      · exact ⟨rfl, rfl⟩
  | succ e ih =>
      intro ch
      simp only [reset_loop]
      split
      · exact ⟨rfl, rfl⟩
      · exact ih _

/-- After the reset sweep, every stage between the pull point and the
start index satisfies the reuse property. -/
theorem reset_loop_resets (ochannels inputEff : Nat) :
    ∀ (e : Nat) (ch : ChainState) (i : Nat), inputEff ≤ i → i ≤ e →
      ((((reset_loop ochannels inputEff e ch).1).get i).odone
          = (((reset_loop ochannels inputEff e ch).1).get i).olen) →
      (((reset_loop ochannels inputEff e ch).1).get i).odone = 0
    ∧ (((reset_loop ochannels inputEff e ch).1).get i).olen = 0 := by
  intro e
  induction e with
  | zero =>
      intro ch i h1 h2
      have hi0 : i = 0 := by omega
      subst hi0
      simp only [reset_loop]
      split
      · exact reset_stage_resets ochannels 0 ch
      · rename_i hne
        exact absurd (by omega : inputEff = 0) hne
  | succ e ih =>
      intro ch i h1 h2
      simp only [reset_loop]
      split
      · rename_i hlt
        omega
      · rcases eq_or_ne i (e + 1) with hie | hie
        · rw [hie, reset_loop_get_high ochannels inputEff e _ (e + 1) (by omega)]
          exact reset_stage_resets ochannels (e + 1) ch
        · exact ih _ i h1 (by omega)

/-- One drain_effect call preserves the buffer invariant provided the
drain contract holds. -/
theorem drain_effect_inv (bufsiz n : Nat) (twin : Nat → Bool)
    (drainL drainR : Nat → Nat → DrainResp)
    (hdL : DrainContract drainL) (hdR : DrainContract drainR)
    (e : Nat) (ch : ChainState) (hinv : StageInv bufsiz n ch) :
    StageInv bufsiz n (drain_effect bufsiz twin drainL drainR e ch).1 := by
  simp only [drain_effect]
  split
  · intro i hi
    rcases eq_or_ne i e with hie | hie
    · rw [hie, ChainState.get_set_self]
      have h1 := hdL e (bufsiz / 2)
      have h2 := hdR e (bufsiz / 2)
      refine ⟨Nat.zero_le _, ?_⟩
      show (drainL e (bufsiz / 2)).produced + (drainR e (bufsiz / 2)).produced ≤ bufsiz
      omega
    · rw [ChainState.get_set_ne _ _ _ _ hie]
      exact hinv i hi
  · intro i hi
    rcases eq_or_ne i e with hie | hie
    · rw [hie, ChainState.get_set_self]
      exact ⟨Nat.zero_le _, hdL e bufsiz⟩
    · rw [ChainState.get_set_ne _ _ _ _ hie]
      exact hinv i hi

/-- A drained stage is refilled from the start: its odone is 0. -/
theorem drain_effect_odone_self (bufsiz : Nat) (twin : Nat → Bool)
    (drainL drainR : Nat → Nat → DrainResp) (e : Nat) (ch : ChainState) :
    (((drain_effect bufsiz twin drainL drainR e ch).1).get e).odone = 0 := by
  simp only [drain_effect]
  split <;> rw [ChainState.get_set_self]

/-- drain_effect touches only its own stage. -/
theorem drain_effect_get_ne (bufsiz : Nat) (twin : Nat → Bool)
    (drainL drainR : Nat → Nat → DrainResp) (e : Nat) (ch : ChainState)
    (i : Nat) (h : i ≠ e) :
    ((drain_effect bufsiz twin drainL drainR e ch).1).get i = ch.get i := by
  simp only [drain_effect]
  split <;> rw [ChainState.get_set_ne _ _ _ _ h]

/-- drain_effect does not move the pull point. -/
theorem drain_effect_inputEff (bufsiz : Nat) (twin : Nat → Bool)
    (drainL drainR : Nat → Nat → DrainResp) (e : Nat) (ch : ChainState) :
    ((drain_effect bufsiz twin drainL drainR e ch).1).inputEff = ch.inputEff := by
  simp only [drain_effect]
  split <;> rfl

/-- The drain-priming loop preserves the buffer invariant. -/
theorem drain_prime_inv (bufsiz n : Nat) (twin : Nat → Bool)
    (drainL drainR : Nat → Nat → DrainResp)
    (hdL : DrainContract drainL) (hdR : DrainContract drainR) :
    ∀ (fuel : Nat) (ch : ChainState), StageInv bufsiz n ch →
      StageInv bufsiz n (drain_prime bufsiz twin drainL drainR fuel ch).1 := by
  intro fuel
  induction fuel with
  | zero =>
      intro ch hinv
      simp only [drain_prime]
      exact hinv
  | succ fuel ih =>
      intro ch hinv
      simp only [drain_prime]
      split
      · refine ih _ ?_
        exact drain_effect_inv bufsiz n twin drainL drainR hdL hdR ch.inputEff ch hinv
      · exact drain_effect_inv bufsiz n twin drainL drainR hdL hdR ch.inputEff ch hinv

/-- The drain-priming loop maintains the buffer-reuse property for all
stages at or above the (possibly advanced) pull point. -/
theorem drain_prime_resets (bufsiz n : Nat) (twin : Nat → Bool)
    (drainL drainR : Nat → Nat → DrainResp) :
    ∀ (fuel : Nat) (ch : ChainState), ResetProp ch.inputEff n ch →
      ResetProp ((drain_prime bufsiz twin drainL drainR fuel ch).1).inputEff n
        ((drain_prime bufsiz twin drainL drainR fuel ch).1) := by
  intro fuel
  induction fuel with
  | zero =>
      intro ch h
      simp only [drain_prime]
      exact h
  | succ fuel ih =>
      intro ch h
      simp only [drain_prime]
      split
      · refine ih _ ?_
        intro i h1 h2
        rw [show ({ (drain_effect bufsiz twin drainL drainR ch.inputEff ch).1 with
            inputEff := ch.inputEff + 1, inputEffEof := false } : ChainState).get i
          = ((drain_effect bufsiz twin drainL drainR ch.inputEff ch).1).get i from rfl]
        rw [drain_effect_get_ne bufsiz twin drainL drainR ch.inputEff ch i (by
          have : ch.inputEff + 1 ≤ i := h1
          omega)]
        exact h i (by
          have : ch.inputEff + 1 ≤ i := h1
          omega) h2
      · rename_i hcond
        intro i h1 h2
        rcases eq_or_ne i ch.inputEff with hie | hie
        · rw [show ({ (drain_effect bufsiz twin drainL drainR ch.inputEff ch).1 with
              inputEffEof := (drain_effect bufsiz twin drainL drainR ch.inputEff ch).2 }
                : ChainState).get i
            = ((drain_effect bufsiz twin drainL drainR ch.inputEff ch).1).get i from rfl]
          rw [hie]
          intro heq
          rw [drain_effect_odone_self] at heq
          exact absurd heq.symm hcond
        · rw [show ({ (drain_effect bufsiz twin drainL drainR ch.inputEff ch).1 with
              inputEffEof := (drain_effect bufsiz twin drainL drainR ch.inputEff ch).2 }
                : ChainState).get i
            = ((drain_effect bufsiz twin drainL drainR ch.inputEff ch).1).get i from rfl]
          rw [drain_effect_get_ne bufsiz twin drainL drainR ch.inputEff ch i hie]
          have h1b : ((drain_effect bufsiz twin drainL drainR ch.inputEff ch).1).inputEff ≤ i := h1
          rw [drain_effect_inputEff] at h1b
          exact h i h1b h2

/-- C2 (amended): after every iteration of the flow loop every stage
satisfies 0 <= odone <= olen <= sox_bufsiz; and every stage at or after
the current pull point input_eff whose odone equals its olen has been
reset to 0 for reuse.  (Stages strictly below input_eff keep their final
counters and are no longer touched, see the counterexample.) -/
theorem C2_flow_invariant (bufsiz n ochannels : Nat) (twin : Nat → Bool)
    (respL respR : Nat → Nat → Nat → FlowResp)
    (drainL drainR : Nat → Nat → DrainResp)
    (hL : FlowContract respL) (hR : FlowContract respR)
    (hdL : DrainContract drainL) (hdR : DrainContract drainR)
    (ch : ChainState) (hinv : StageInv bufsiz n ch)
    (ch2 : ChainState) (hd : Bool)
    (hrun : flow_iteration bufsiz n ochannels twin respL respR drainL drainR ch
      = Except.ok (ch2, hd)) :
    StageInv bufsiz n ch2 ∧ ResetProp ch2.inputEff n ch2 := by
  simp only [flow_iteration] at hrun
  split at hrun
  · exact absurd hrun (by simp)
  · rename_i ch1 heq1
    have hinv1 : StageInv bufsiz n ch1 :=
      flow_pass_inv bufsiz n twin respL respR hL hR (n - 1) ch hinv ch1 heq1
    have hinv2 : StageInv bufsiz n (write_step n ch1) := write_step_inv bufsiz n n ch1 hinv1
    have hinv3 : StageInv bufsiz n
        (reset_loop ochannels ch1.inputEff (n - 1) (write_step n ch1)).1 :=
      reset_loop_inv bufsiz n ochannels ch1.inputEff (n - 1) _ hinv2
    have hie : ((reset_loop ochannels ch1.inputEff (n - 1) (write_step n ch1)).1).inputEff
        = ch1.inputEff :=
      (reset_loop_inputEff ochannels ch1.inputEff (n - 1) (write_step n ch1)).1
    have hresetp : ResetProp
        ((reset_loop ochannels ch1.inputEff (n - 1) (write_step n ch1)).1).inputEff n
        (reset_loop ochannels ch1.inputEff (n - 1) (write_step n ch1)).1 := by
      intro i h1 h2
      rw [hie] at h1
      have hce : ch1.inputEff = (write_step n ch1).inputEff := rfl
      rw [hce] at h1
      exact reset_loop_resets ochannels ch1.inputEff (n - 1) (write_step n ch1) i h1
        (by omega)
    split at hrun
    · split at hrun
      · injection hrun with hq
        rw [show ch2 = (drain_prime bufsiz twin drainL drainR
            (n - (({ (reset_loop ochannels ch1.inputEff (n - 1) (write_step n ch1)).1 with
              inputEff := ((reset_loop ochannels ch1.inputEff (n - 1)
                (write_step n ch1)).1).inputEff + 1,
              inputEffEof := false } : ChainState)).inputEff)
            { (reset_loop ochannels ch1.inputEff (n - 1) (write_step n ch1)).1 with
              inputEff := ((reset_loop ochannels ch1.inputEff (n - 1)
                (write_step n ch1)).1).inputEff + 1,
              inputEffEof := false }).1 from (congrArg Prod.fst hq).symm]
        constructor
        · refine drain_prime_inv bufsiz n twin drainL drainR hdL hdR _ _ ?_
          exact hinv3
        · refine drain_prime_resets bufsiz n twin drainL drainR _ _ ?_
          intro i h1 h2
          refine hresetp i ?_ h2
          have h1b : ((reset_loop ochannels ch1.inputEff (n - 1)
              (write_step n ch1)).1).inputEff + 1 ≤ i := h1
          omega
      · injection hrun with hq
        rw [show ch2 = (drain_prime bufsiz twin drainL drainR
            (n - ((reset_loop ochannels ch1.inputEff (n - 1) (write_step n ch1)).1).inputEff)
            (reset_loop ochannels ch1.inputEff (n - 1) (write_step n ch1)).1).1
          from (congrArg Prod.fst hq).symm]
        constructor
        · exact drain_prime_inv bufsiz n twin drainL drainR hdL hdR _ _ hinv3
        · exact drain_prime_resets bufsiz n twin drainL drainR _ _ hresetp
    · injection hrun with hq
      rw [show ch2 = (reset_loop ochannels ch1.inputEff (n - 1) (write_step n ch1)).1
        from (congrArg Prod.fst hq).symm]
      exact ⟨hinv3, hresetp⟩

/-- C2 counterexample: a concrete flow iteration (3 stages, the middle
effect consumes and produces 4 samples and reports EOF on the same
call) after which stage 0 sits behind the new pull point input_eff = 1
with odone = olen = 4, not reset to 0: the buffer-reuse sweep of
flow_effect_out only covers stages from input_eff upwards, so the
claim's universal reset clause fails for stages below the pull point. -/
theorem C2_counterexample :
    (c2post.get 0).odone = 4
  ∧ (c2post.get 0).olen = 4
  ∧ c2post.inputEff = 1
  ∧ ¬ ResetProp 0 3 c2post := by
  refine ⟨by decide, by decide, by decide, ?_⟩
  intro hr
  have h0 := hr 0 (Nat.zero_le 0) (by decide) (by decide)
  exact absurd h0.1 (by decide)

/-- Witness for C2: the amended invariant theorem applied to a concrete
2-stage run whose effect consumes everything offered and fills all
offered space. -/
theorem C2_flow_invariant_witness :
    StageInv 4 2 c2wpost ∧ ResetProp c2wpost.inputEff 2 c2wpost := by
  refine C2_flow_invariant 4 2 1 (fun _ => false) c2wresp c2wresp c2drain c2drain
    ?_ ?_ ?_ ?_ c2wstart ?_ c2wpost c2whd ?_
  · intro e ia os
    exact ⟨le_refl ia, le_refl os⟩
  · intro e ia os
    exact ⟨le_refl ia, le_refl os⟩
  · intro e os
    exact Nat.zero_le os
  · intro e os
    exact Nat.zero_le os
  · intro e he
    rcases (by omega : e = 0 ∨ e = 1) with h | h <;> subst h <;> exact ⟨by decide, by decide⟩
  · rfl

/-- The interleave loop writes exactly 2k samples: k left/right pairs. -/
theorem interleavePairs_length (ls rs : List Int) (k : Nat) :
    (interleavePairs ls rs k).length = 2 * k := by
  induction k with
  | zero => rfl
  | succ k ih =>
      simp only [interleavePairs, List.length_append, ih, List.length_cons, List.length_nil]
      omega

/-- C8 counterexample: a twin flow call in which the left instance
produces two samples and the right instance one is not rejected: no
assertion fires, the call succeeds, exactly one (not two) left/right
pair is interleaved into the downstream buffer, and its olen still
advances by 2 + 1 = 3, silently corrupting channel alignment. -/
theorem C8_counterexample :
    flow_effect_twin 8 c8flowL c8flowR c8prev c8cur
      = Except.ok ({ obuf := [1, 2, 3, 4], odone := 4, olen := 4 },
                   { obuf := [10, 30], odone := 0, olen := 3 }, false)
  ∧ (c8flowL [1, 3] 4).out.length ≠ (c8flowR [2, 4] 4).out.length := by
  constructor
  · rfl
  · decide

/-- C8 (amended): the scheduler performs no equality check on the twin
instances' output counts: a twin flow call can only fail as the
livelock protection (nothing consumed and nothing produced, without
EOF), never on a count mismatch; it interleaves exactly odoner pairs
(the right twin's output count) into the downstream buffer, advancing
olen by odonel + odoner; and a twin drain call likewise interleaves
olenr pairs with olen = olenl + olenr and no mismatch check. -/
theorem C8_twin_interleave (bufsiz : Nat) (flowL flowR : List Int → Nat → EffectOut)
    (drL drR : Nat → EffectOut) (prev cur : BufStage)
    (hdata : prev.odone ≠ prev.olen)
    (rl rr : EffectOut)
    (hrl : rl = flowL ((deinterleave ((prev.obuf.drop prev.odone).take
        (prev.olen - prev.odone))).1.take ((prev.olen - prev.odone + 1) / 2))
        ((bufsiz - cur.olen) / 2))
    (hrr : rr = flowR ((deinterleave ((prev.obuf.drop prev.odone).take
        (prev.olen - prev.odone))).2.take ((prev.olen - prev.odone) / 2))
        ((bufsiz - cur.olen) / 2)) :
    (flow_effect_twin bufsiz flowL flowR prev cur = Except.error ()
      ↔ rl.eof = false ∧ rr.eof = false
        ∧ rl.consumed + rr.consumed + rl.out.length + rr.out.length = 0)
  ∧ (∀ p c st, flow_effect_twin bufsiz flowL flowR prev cur = Except.ok (p, c, st) →
      c.obuf = cur.obuf ++ interleavePairs rl.out rr.out rr.out.length
    ∧ c.olen = cur.olen + rl.out.length + rr.out.length
    ∧ p.odone = prev.odone + rl.consumed + rr.consumed
    ∧ (interleavePairs rl.out rr.out rr.out.length).length = 2 * rr.out.length
    ∧ st = (rl.eof || rr.eof))
  ∧ ((drain_effect_twin bufsiz drL drR cur).1.obuf
        = interleavePairs (drL (bufsiz / 2)).out (drR (bufsiz / 2)).out
            (drR (bufsiz / 2)).out.length
    ∧ (drain_effect_twin bufsiz drL drR cur).1.olen
        = (drL (bufsiz / 2)).out.length + (drR (bufsiz / 2)).out.length
    ∧ (drain_effect_twin bufsiz drL drR cur).1.odone = 0) := by
  have hunf : flow_effect_twin bufsiz flowL flowR prev cur
      = if rl.eof || rr.eof then
          Except.ok ({ prev with odone := prev.odone + rl.consumed + rr.consumed },
            { obuf := cur.obuf ++ interleavePairs rl.out rr.out rr.out.length,
              odone := cur.odone,
              olen := cur.olen + rl.out.length + rr.out.length }, true)
        else if rl.consumed + rr.consumed + rl.out.length + rr.out.length = 0 then
          Except.error ()
        else
          Except.ok ({ prev with odone := prev.odone + rl.consumed + rr.consumed },
            { obuf := cur.obuf ++ interleavePairs rl.out rr.out rr.out.length,
              odone := cur.odone,
              olen := cur.olen + rl.out.length + rr.out.length }, false) := by
    rw [hrl, hrr]
    simp only [flow_effect_twin]
    rw [if_neg hdata]
  refine ⟨?_, ?_, ?_, ?_, ?_⟩
  · rw [hunf]
    by_cases heof : (rl.eof || rr.eof) = true
    · rw [if_pos heof]
      constructor
      · intro hc
        exact absurd hc (by simp)
      · intro hc
        rw [hc.1, hc.2.1] at heof
        exact absurd heof (by simp)
    · rw [if_neg heof]
      rw [Bool.not_eq_true] at heof
      have heof2 := heof
      simp only [Bool.or_eq_false_iff] at heof2
      by_cases hz : rl.consumed + rr.consumed + rl.out.length + rr.out.length = 0
      · rw [if_pos hz]
        constructor
        · intro _
          exact ⟨heof2.1, heof2.2, hz⟩
        · intro _
          rfl
      · rw [if_neg hz]
        constructor
        · intro hc
          exact absurd hc (by simp)
        · intro hc
          exact absurd hc.2.2 hz
  · intro p c st hok
    rw [hunf] at hok
    split at hok
    · rename_i hcond
      injection hok with h1
      injection h1 with ha h2
      injection h2 with hb hc
      refine ⟨?_, ?_, ?_, interleavePairs_length rl.out rr.out rr.out.length, ?_⟩
      · rw [← hb]
      · rw [← hb]
      · rw [← ha]
      · rw [← hc, hcond]
    · split at hok
      · exact absurd hok (by simp)
      · rename_i hcond hz
        rw [Bool.not_eq_true] at hcond
        injection hok with h1
        injection h1 with ha h2
        injection h2 with hb hc
        refine ⟨?_, ?_, ?_, interleavePairs_length rl.out rr.out rr.out.length, ?_⟩
        · rw [← hb]
        · rw [← hb]
        · rw [← ha]
        · rw [← hc, hcond]
  · rfl
  · rfl
  · rfl

/-- Witness for C8: the amended theorem applied to the concrete twin
call of the counterexample run (left produces 2, right produces 1). -/
theorem C8_twin_interleave_witness :
    ({ obuf := ([10, 30] : List Int), odone := 0, olen := 3 } : BufStage).obuf
      = c8cur.obuf ++ interleavePairs (c8flowL [1, 3] 4).out (c8flowR [2, 4] 4).out
          (c8flowR [2, 4] 4).out.length
  ∧ ({ obuf := ([10, 30] : List Int), odone := 0, olen := 3 } : BufStage).olen
      = c8cur.olen + (c8flowL [1, 3] 4).out.length + (c8flowR [2, 4] 4).out.length := by
  have h := (C8_twin_interleave 8 c8flowL c8flowR (fun _ => c8flowL [] 0)
      (fun _ => c8flowR [] 0) c8prev c8cur (by decide)
      (c8flowL [1, 3] 4) (c8flowR [2, 4] 4) rfl rfl).2.1
    { obuf := [1, 2, 3, 4], odone := 4, olen := 4 }
    { obuf := [10, 30], odone := 0, olen := 3 } false rfl
  exact ⟨h.1, h.2.1⟩
